import Mathlib

/-!
Shallow embedding of `sources/tsjson.py` (class `TSjson`), a mutex-guarded
JSON file store whose document layout is `{"Content": [record, ...]}`.

Modelling conventions:
* JSON values are the inductive `JValue`; objects are ordered association
  lists (the source parses with `object_pairs_hook=OrderedDict`, and the JSON
  parser never yields duplicate keys, so lists produced by parsing have
  distinct keys and `List.lookup` is the dictionary lookup).
* Python `==` on parsed JSON data is structural equality, embedded by
  `JValue.beq` (proved to coincide with `=`).
* The file bound to a `TSjson` instance is a `FileState`: absent, empty, or
  present with data that either parses to a `JValue` or is unparseable
  (`garbage`).  The filesystem and the JSON encoder/decoder are treated as
  correct primitives, so a dump of a `JValue` always re-parses to itself and
  file opens/creates/removes never fail; `garbage` only describes
  pre-existing corrupt files.
* Each Python method becomes a function from `FileState` to its return value
  paired with the new `FileState`.  An exception that the method does not
  catch is an `Except.error` result (`PyErr`); methods whose `try` block
  covers every raising statement return plain values.
* Logging is a write-only sink (per the source, failures only log and
  return), so it is not modelled.
-/

inductive JValue where
  | jnull
  | jbool (b : Bool)
  | jnum (n : Int)
  | jstr (s : String)
  | jarr (elems : List JValue)
  | jobj (fields : List (String × JValue))

mutual

/-- Structural equality on JSON values: Python `==` on data returned by
`json.load` (lists equal componentwise; parsed objects have distinct keys and
`OrderedDict` comparison on them agrees with pairwise comparison). -/
def JValue.beq : JValue → JValue → Bool
  | .jnull, .jnull => true
  | .jbool a, .jbool b => a == b
  | .jnum a, .jnum b => a == b
  | .jstr a, .jstr b => a == b
  | .jarr xs, .jarr ys => JValue.beqList xs ys
  | .jobj fs, .jobj gs => JValue.beqFields fs gs
  | _, _ => false

/-- Componentwise equality of JSON arrays. -/
def JValue.beqList : List JValue → List JValue → Bool
  | [], [] => true
  | x :: xs, y :: ys => JValue.beq x y && JValue.beqList xs ys
  | _, _ => false

/-- Componentwise equality of JSON object bindings. -/
def JValue.beqFields : List (String × JValue) → List (String × JValue) → Bool
  | [], [] => true
  | (k, v) :: fs, (l, w) :: gs => k == l && JValue.beq v w && JValue.beqFields fs gs
  | _, _ => false

end

mutual

theorem JValue.beq_iff : ∀ a b : JValue, JValue.beq a b = true ↔ a = b
  | .jnull, .jnull => by simp [JValue.beq]
  | .jbool a, .jbool b => by simp [JValue.beq]
  | .jnum a, .jnum b => by simp [JValue.beq]
  | .jstr a, .jstr b => by simp [JValue.beq]
  | .jarr xs, .jarr ys => by
      simp only [JValue.beq, JValue.beqList_iff xs ys, JValue.jarr.injEq]
  | .jobj fs, .jobj gs => by
      simp only [JValue.beq, JValue.beqFields_iff fs gs, JValue.jobj.injEq]
  | .jnull, .jbool _ => by simp [JValue.beq]
  | .jnull, .jnum _ => by simp [JValue.beq]
  | .jnull, .jstr _ => by simp [JValue.beq]
  | .jnull, .jarr _ => by simp [JValue.beq]
  | .jnull, .jobj _ => by simp [JValue.beq]
  | .jbool _, .jnull => by simp [JValue.beq]
  | .jbool _, .jnum _ => by simp [JValue.beq]
  | .jbool _, .jstr _ => by simp [JValue.beq]
  | .jbool _, .jarr _ => by simp [JValue.beq]
  | .jbool _, .jobj _ => by simp [JValue.beq]
  | .jnum _, .jnull => by simp [JValue.beq]
  | .jnum _, .jbool _ => by simp [JValue.beq]
  | .jnum _, .jstr _ => by simp [JValue.beq]
  | .jnum _, .jarr _ => by simp [JValue.beq]
  | .jnum _, .jobj _ => by simp [JValue.beq]
  | .jstr _, .jnull => by simp [JValue.beq]
  | .jstr _, .jbool _ => by simp [JValue.beq]
  | .jstr _, .jnum _ => by simp [JValue.beq]
  | .jstr _, .jarr _ => by simp [JValue.beq]
  | .jstr _, .jobj _ => by simp [JValue.beq]
  | .jarr _, .jnull => by simp [JValue.beq]
  | .jarr _, .jbool _ => by simp [JValue.beq]
  | .jarr _, .jnum _ => by simp [JValue.beq]
  | .jarr _, .jstr _ => by simp [JValue.beq]
  | .jarr _, .jobj _ => by simp [JValue.beq]
  | .jobj _, .jnull => by simp [JValue.beq]
  | .jobj _, .jbool _ => by simp [JValue.beq]
  | .jobj _, .jnum _ => by simp [JValue.beq]
  | .jobj _, .jstr _ => by simp [JValue.beq]
  | .jobj _, .jarr _ => by simp [JValue.beq]

theorem JValue.beqList_iff : ∀ xs ys : List JValue, JValue.beqList xs ys = true ↔ xs = ys
  | [], [] => by simp [JValue.beqList]
  | [], _ :: _ => by simp [JValue.beqList]
  | _ :: _, [] => by simp [JValue.beqList]
  | x :: xs, y :: ys => by
      simp only [JValue.beqList, Bool.and_eq_true, JValue.beq_iff x y,
        JValue.beqList_iff xs ys, List.cons.injEq]

theorem JValue.beqFields_iff :
    ∀ fs gs : List (String × JValue), JValue.beqFields fs gs = true ↔ fs = gs
  | [], [] => by simp [JValue.beqFields]
  | [], _ :: _ => by simp [JValue.beqFields]
  | _ :: _, [] => by simp [JValue.beqFields]
  | (k, v) :: fs, (l, w) :: gs => by
      simp only [JValue.beqFields, Bool.and_eq_true, beq_iff_eq, JValue.beq_iff v w,
        JValue.beqFields_iff fs gs, List.cons.injEq, Prod.mk.injEq]

end

instance JValue.instDecEq : DecidableEq JValue := fun a b =>
  decidable_of_iff (JValue.beq a b = true) (JValue.beq_iff a b)

/-- Python truthiness (`bool(v)`) of a JSON value: `None`, `False`, `0`, the
empty string, the empty list and the empty dict are falsy. -/
def JValue.isTruthy : JValue → Bool
  | .jnull => false
  | .jbool b => b
  | .jnum n => decide (n ≠ 0)
  | .jstr s => decide (s ≠ "")
  | .jarr xs => !xs.isEmpty
  | .jobj fs => !fs.isEmpty

/-- Uncaught Python exceptions the store's code can raise: `KeyError` from a
dict subscript with a missing key, `TypeError` from subscripting or iterating
a value of the wrong shape. -/
inductive PyErr where
  | keyError
  | typeError
deriving DecidableEq

/-- Python dict subscript `v[k]` on a parsed JSON value: `KeyError` when the
key is absent, `TypeError` when `v` is not an object (subscripting a list,
number, etc. with a string key). -/
def JValue.getField : JValue → String → Except PyErr JValue
  | .jobj fields, k =>
      match fields.lookup k with
      | some v => .ok v
      | none => .error .keyError
  | _, _ => .error .typeError

/-- In-place overwrite of the binding of `key` (Python `d[key] = w` for a key
already in the dict: the binding keeps its position, other keys untouched). -/
def setField : List (String × JValue) → String → JValue → List (String × JValue)
  | [], _, _ => []
  | (k, v) :: rest, key, w =>
      if k = key then (k, w) :: rest else (k, v) :: setField rest key w

/-- Data of a present, non-empty file: either text that parses as JSON or
unparseable text. -/
inductive FileData where
  | garbage
  | json (v : JValue)
deriving DecidableEq

/-- State of the one file a `TSjson` instance is bound to. -/
inductive FileState where
  | absent
  | empty
  | data (d : FileData)
deriving DecidableEq

instance instDecEqExcept {ε α : Type} [DecidableEq ε] [DecidableEq α] :
    DecidableEq (Except ε α)
  | .error e, .error f => decidable_of_iff (e = f) (by simp)
  | .error _, .ok _ => .isFalse (by simp)
  | .ok _, .error _ => .isFalse (by simp)
  | .ok a, .ok b => decidable_of_iff (a = b) (by simp)

/-- The skeleton document the source writes to bootstrap or clear a file
(the literal text parses to exactly this value). -/
def skeleton : JValue := .jobj [("Content", .jarr [])]

namespace TSjson

/-- Method `read`: `{}` when the file is absent or empty, the parsed value
when it parses, and `None` (here `none`) when parsing or opening fails — all
raising statements are inside its `try`, so `read` itself never raises. -/
def read : FileState → Option JValue
  | .absent => some (.jobj [])
  | .empty => some (.jobj [])
  | .data .garbage => none
  | .data (.json v) => some v

/-- Method `write`: rejects falsy `data` without touching the file, otherwise
overwrites the file with the serialized document (directory creation and the
dump are assumed-correct primitives, so the write succeeds). -/
def write (d : JValue) (fs : FileState) : Bool × FileState :=
  if d.isTruthy then (true, .data (.json d)) else (false, fs)

/-- Method `delete`: removes the file if present; succeeds either way. -/
def delete (_fs : FileState) : Bool × FileState :=
  (true, .absent)

/-- Method `read_content`: projects the `"Content"` key out of `read`'s
result, mapping both the `None` failure marker and the empty dict to `{}`.
The subscript `read["Content"]` sits outside any `try`, so on a parseable
document that is not an object containing `"Content"` (and is not `{}`) the
exception propagates to the caller. -/
def read_content (fs : FileState) : Except PyErr JValue :=
  match read fs with
  | none => .ok (.jobj [])
  | some v =>
      if v = .jobj [] then .ok (.jobj [])
      else v.getField "Content"

/-- Method `write_content` (spec name `appendContent`): rejects falsy input;
on a present non-empty file it parses the document and appends to its
`"Content"` list (any raise inside — parse failure, missing key, wrong
shape — is caught and turns into `False` with the file untouched); on an
absent or empty file it first writes the skeleton and then appends, yielding
`{"Content": [d]}`. -/
def write_content (d : JValue) (fs : FileState) : Bool × FileState :=
  if !d.isTruthy then (false, fs)
  else
    match fs with
    | .data .garbage => (false, fs)
    | .data (.json v) =>
        match v with
        | .jobj fields =>
            match fields.lookup "Content" with
            | some (.jarr xs) =>
                (true, .data (.json (.jobj (setField fields "Content" (.jarr (xs ++ [d]))))))
            | some _ => (false, fs)
            | none => (false, fs)
        | _ => (false, fs)
    | _ => (true, .data (.json (.jobj [("Content", .jarr [d])])))

/-- Method `clear_content`: fails without touching anything when the file is
absent or empty, otherwise overwrites it with the skeleton document. -/
def clear_content (fs : FileState) : Bool × FileState :=
  match fs with
  | .absent => (false, .absent)
  | .empty => (false, .empty)
  | .data _ => (true, .data (.json skeleton))

/-- Loop of `is_in`: `for _data in content: if data == _data: return True`. -/
def memberScan (d : JValue) : List JValue → Bool
  | [] => false
  | x :: xs => if d = x then true else memberScan d xs

/-- Method `is_in` (spec name `contains`): linear scan of `Content` for a
record equal to `data`.  The subscript `file_data["Content"]` is uncaught;
iterating a `Content` value that is not a list is modelled as `TypeError`
(the store itself only ever writes list `Content`s). -/
def is_in (d : JValue) (fs : FileState) : Except PyErr Bool :=
  match read fs with
  | none => .ok false
  | some v =>
      if v = .jobj [] then .ok false
      else
        match v.getField "Content" with
        | .error e => .error e
        | .ok (.jarr xs) => .ok (memberScan d xs)
        | .ok _ => .error .typeError

/-- Loop of `is_in_position`: returns the found flag together with the final
value of the counter `i`, which on a miss has been incremented once per
element and therefore equals the list's length. -/
def positionScan (d : JValue) : List JValue → Bool × Nat
  | [] => (false, 0)
  | x :: xs =>
      if d = x then (true, 0)
      else
        let r := positionScan d xs
        (r.1, r.2 + 1)

/-- Method `is_in_position` (spec name `containsAt`): `(False, -1)` when the
document is absent, empty or unreadable; otherwise the scan's flag and
counter over the `Content` list. -/
def is_in_position (d : JValue) (fs : FileState) : Except PyErr (Bool × Int) :=
  match read fs with
  | none => .ok (false, -1)
  | some v =>
      if v = .jobj [] then .ok (false, -1)
      else
        match v.getField "Content" with
        | .error e => .error e
        | .ok (.jarr xs) =>
            let r := positionScan d xs
            .ok (r.1, (r.2 : Int))
        | .ok _ => .error .typeError

/-- Loop of `remove_by_uid`: first element whose `uid` field equals `value`.
Each iteration evaluates `data[uid]`, so a pre-match element without the
field (or of the wrong shape) raises. -/
def findByUidScan (value : JValue) (uid : String) : List JValue → Except PyErr (Option JValue)
  | [] => .ok none
  | x :: xs =>
      match x.getField uid with
      | .error e => .error e
      | .ok w => if w = value then .ok (some x) else findByUidScan value uid xs

/-- Method `remove_by_uid` (spec name `removeByUid`): reads the content list
(`read_content`'s possible raise propagates), returns `False` untouched on
`{}`, removes the first element whose `uid` field equals `value` from the
in-memory list (Python `list.remove`, i.e. erase the first equal element),
then unconditionally clears the file and, when the remaining list is truthy,
re-appends only its first element. -/
def remove_by_uid (value : JValue) (uid : String) (fs : FileState) :
    Except PyErr (Bool × FileState) :=
  match read_content fs with
  | .error e => .error e
  | .ok fc =>
      if fc = .jobj [] then .ok (false, fs)
      else
        match fc with
        | .jarr xs =>
            match findByUidScan value uid xs with
            | .error e => .error e
            | .ok m =>
                let remaining := match m with
                  | some d => xs.erase d
                  | none => xs
                let fs1 := (clear_content fs).2
                let fs2 := match remaining with
                  | [] => fs1
                  | x0 :: _ => (write_content x0 fs1).2
                .ok (m.isSome, fs2)
        | _ => .error .typeError

/-- Loop of `search_by_uid`: skips falsy elements (`if not element:
continue`), then evaluates `element[uid]` (raising on a truthy element
without the field) and stops at the first equal value. -/
def searchScan (value : JValue) (uid : String) : List JValue → Except PyErr (Bool × Option JValue)
  | [] => .ok (false, none)
  | x :: xs =>
      if !x.isTruthy then searchScan value uid xs
      else
        match x.getField uid with
        | .error e => .error e
        | .ok w => if w = value then .ok (true, some x) else searchScan value uid xs

/-- Method `search_by_uid` (spec name `findByUid`): result dict with a
`found` flag and the matched record or `None`. -/
def search_by_uid (value : JValue) (uid : String) (fs : FileState) :
    Except PyErr (Bool × Option JValue) :=
  match read fs with
  | none => .ok (false, none)
  | some v =>
      if v = .jobj [] then .ok (false, none)
      else
        match v.getField "Content" with
        | .error e => .error e
        | .ok (.jarr xs) => searchScan value uid xs
        | .ok _ => .error .typeError

/-- Loop of `update`: each iteration evaluates `data[uid] == msg[uid]` (left
operand first, as Python does), so either side missing the field raises; on
a miss the counter is incremented, so it ends at the match index or at the
list's length. -/
def updateScan (d : JValue) (uid : String) : List JValue → Except PyErr (Bool × Nat)
  | [] => .ok (false, 0)
  | x :: xs =>
      match d.getField uid with
      | .error e => .error e
      | .ok dv =>
          match x.getField uid with
          | .error e => .error e
          | .ok w =>
              if dv = w then .ok (true, 0)
              else
                match updateScan d uid xs with
                | .error e => .error e
                | .ok r => .ok (r.1, r.2 + 1)

/-- Method `update`: `False` untouched on a `None` or `{}` read; otherwise
scans `Content` for the first element whose `uid` field equals `data`'s, and
on a hit assigns `Content[i] = data` and overwrites the file via `write`
(whose result is ignored). -/
def update (d : JValue) (uid : String) (fs : FileState) : Except PyErr (Bool × FileState) :=
  match read fs with
  | none => .ok (false, fs)
  | some v =>
      if v = .jobj [] then .ok (false, fs)
      else
        match v with
        | .jobj fields =>
            match fields.lookup "Content" with
            | some (.jarr xs) =>
                match updateScan d uid xs with
                | .error e => .error e
                | .ok r =>
                    if r.1 then
                      .ok (true,
                        (write (.jobj (setField fields "Content" (.jarr (xs.set r.2 d)))) fs).2)
                    else .ok (false, fs)
            | some _ => .error .typeError
            | none => .error .keyError
        | _ => .error .typeError

end TSjson

/-! ### Helper lemmas -/

theorem lookup_some_ne_nil {fields : List (String × JValue)} {k : String} {v : JValue}
    (h : fields.lookup k = some v) : fields ≠ [] := by
  intro e
  subst e
  simp [List.lookup] at h

theorem getField_ok_isTruthy {x w : JValue} {uid : String}
    (h : x.getField uid = Except.ok w) : x.isTruthy = true := by
  match x with
  | .jnull | .jbool _ | .jnum _ | .jstr _ | .jarr _ => simp [JValue.getField] at h
  | .jobj [] => simp [JValue.getField, List.lookup] at h
  | .jobj (f :: fs) => rfl

theorem jobj_ne_empty {fields : List (String × JValue)} (h : fields ≠ []) :
    JValue.jobj fields ≠ JValue.jobj [] := by
  simp [JValue.jobj.injEq, h]

theorem set_length_append {α : Type} (pre post : List α) (m d : α) :
    (pre ++ m :: post).set pre.length d = pre ++ d :: post := by
  induction pre with
  | nil => rfl
  | cons x xs ih => simp [List.set, ih]

/-! ### C6: write then read round-trip -/

/-- C6: for every non-empty (truthy) JSON document `d` and every prior file
state, `write d` followed by `read` returns a document structurally equal to
`d`. -/
theorem C6_write_read_roundtrip (d : JValue) (fs : FileState) (h : d.isTruthy = true) :
    TSjson.read (TSjson.write d fs).2 = some d := by
  simp [TSjson.write, h, TSjson.read]

/-- C6 witness: the round-trip at a concrete non-empty document. -/
theorem C6_witness :
    (JValue.jobj [("a", JValue.jnum 1)]).isTruthy = true ∧
    TSjson.read (TSjson.write (JValue.jobj [("a", JValue.jnum 1)]) .absent).2 =
      some (JValue.jobj [("a", JValue.jnum 1)]) :=
  ⟨by decide, C6_write_read_roundtrip (JValue.jobj [("a", JValue.jnum 1)]) .absent (by decide)⟩

/-! ### C7: clear_content contract -/

/-- C7: `clear_content` succeeds exactly when the file exists and is
non-empty; on success the file holds the skeleton, so a subsequent
`read_content` returns the empty list; on a missing or empty file it fails
and leaves the state untouched (in particular it creates no file). -/
theorem C7_clear_content (fs : FileState) :
    ((TSjson.clear_content fs).1 = true ↔ ∃ d, fs = .data d) ∧
    ((TSjson.clear_content fs).1 = true →
      (TSjson.clear_content fs).2 = .data (.json skeleton) ∧
      TSjson.read_content (TSjson.clear_content fs).2 = .ok (.jarr [])) ∧
    (fs = .absent → TSjson.clear_content fs = (false, .absent)) ∧
    (fs = .empty → TSjson.clear_content fs = (false, .empty)) := by
  cases fs with
  | absent => refine ⟨by simp [TSjson.clear_content], ?_, fun _ => rfl, by simp⟩
              intro h
              simp [TSjson.clear_content] at h
  | empty => refine ⟨by simp [TSjson.clear_content], ?_, by simp, fun _ => rfl⟩
             intro h
             simp [TSjson.clear_content] at h
  | data d =>
      refine ⟨by simp [TSjson.clear_content], fun _ => ⟨rfl, rfl⟩, by simp, by simp⟩

/-- C7 witness: a concrete existing non-empty (here unparseable) file is
cleared to the skeleton, after which `read_content` yields the empty list;
a concrete absent file is refused untouched. -/
theorem C7_witness :
    TSjson.read_content (TSjson.clear_content (.data .garbage)).2 = .ok (.jarr []) ∧
    TSjson.clear_content .absent = (false, .absent) :=
  ⟨((C7_clear_content (.data .garbage)).2.1 (by decide)).2,
   (C7_clear_content .absent).2.2.1 rfl⟩

/-! ### C4: read_content projection -/

/-- C4 counterexample: a present, non-empty, parseable document without a
`"Content"` key makes `read_content` raise `KeyError` instead of returning
the content — so the claim's clause for parseable documents fails as
stated. -/
theorem C4_counterexample :
    TSjson.read_content (.data (.json (.jobj [("Other", .jarr [])]))) =
      .error .keyError := by decide

/-- C4 amended: when the document is absent, empty, or unreadable,
`read_content` returns the empty dict `{}` (a value with no records, though
not literally a sequence); for a present parseable document that is an
object containing a `"Content"` key, it returns that key's value. -/
theorem C4_read_content (fs : FileState) :
    ((fs = .absent ∨ fs = .empty ∨ fs = .data .garbage) →
      TSjson.read_content fs = .ok (.jobj [])) ∧
    (∀ fields c, fs = .data (.json (.jobj fields)) → fields.lookup "Content" = some c →
      TSjson.read_content fs = .ok c) := by
  constructor
  · rintro (rfl | rfl | rfl) <;> rfl
  · rintro fields c rfl hc
    have hne : fields ≠ [] := lookup_some_ne_nil hc
    simp [TSjson.read_content, TSjson.read, jobj_ne_empty hne, JValue.getField, hc]

/-- C4 witness: both amended clauses at concrete states. -/
theorem C4_witness :
    TSjson.read_content .absent = .ok (.jobj []) ∧
    TSjson.read_content (.data (.json (.jobj [("Content", .jarr [.jnum 7])]))) =
      .ok (.jarr [.jnum 7]) :=
  ⟨(C4_read_content .absent).1 (Or.inl rfl),
   (C4_read_content (.data (.json (.jobj [("Content", .jarr [.jnum 7])])))).2
     [("Content", JValue.jarr [JValue.jnum 7])] (JValue.jarr [JValue.jnum 7]) rfl (by decide)⟩

/-! ### C2: exception confinement -/

/-- C2 counterexample: on a file that parses to a JSON object lacking the
`"Content"` key, `read_content` lets the `KeyError` from the uncaught
subscript `read["Content"]` propagate past the operation boundary, instead
of converting it into a failure return. -/
theorem C2_counterexample :
    TSjson.read_content (.data (.json (.jobj [("Version", .jnum 1)]))) =
      .error .keyError := by decide

/-- C2 amended: the raw operations and the append/clear paths recover all
failures locally, but `read_content` (and the uid-scanning operations built
on the same uncaught subscripts) can raise; `read_content` raises only for a
present, non-empty, parseable document whose `"Content"` subscript raises —
never for an absent, empty, or unreadable file. -/
theorem C2_read_content_error_source (fs : FileState) (e : PyErr)
    (h : TSjson.read_content fs = .error e) :
    ∃ v, fs = .data (.json v) ∧ v ≠ .jobj [] ∧ v.getField "Content" = .error e := by
  cases fs with
  | absent => simp [TSjson.read_content, TSjson.read] at h
  | empty => simp [TSjson.read_content, TSjson.read] at h
  | data d =>
      cases d with
      | garbage => simp [TSjson.read_content, TSjson.read] at h
      | json v =>
          refine ⟨v, rfl, ?_, ?_⟩ <;> by_cases hv : v = JValue.jobj []
          · subst hv; simp [TSjson.read_content, TSjson.read] at h
          · exact hv
          · subst hv; simp [TSjson.read_content, TSjson.read] at h
          · simpa [TSjson.read_content, TSjson.read, hv] using h

/-- C2 witness: the amended theorem applied at a concrete raising state. -/
theorem C2_witness :
    ∃ v, (FileState.data (.json (.jobj [("Version", .jnum 1)]))) = .data (.json v) ∧
      v ≠ .jobj [] ∧ v.getField "Content" = .error .keyError :=
  C2_read_content_error_source (.data (.json (.jobj [("Version", .jnum 1)]))) .keyError
    (by decide)

/-! ### C3: is_in_position -/

theorem positionScan_not_found {d : JValue} {xs : List JValue} (h : ∀ x ∈ xs, x ≠ d) :
    TSjson.positionScan d xs = (false, xs.length) := by
  induction xs with
  | nil => rfl
  | cons x xs ih =>
      have hx : ¬ d = x := fun e => (h x (by simp)) e.symm
      simp [TSjson.positionScan, hx, ih fun y hy => h y (by simp [hy])]

theorem positionScan_first {d : JValue} {pre post : List JValue} (h : ∀ x ∈ pre, x ≠ d) :
    TSjson.positionScan d (pre ++ d :: post) = (true, pre.length) := by
  induction pre with
  | nil => simp [TSjson.positionScan]
  | cons x xs ih =>
      have hx : ¬ d = x := fun e => (h x (by simp)) e.symm
      simp [TSjson.positionScan, hx, ih fun y hy => h y (by simp [hy])]

/-- C3 counterexample: on a readable one-record document with no structurally
equal record, `is_in_position` returns the loop counter — here `1`, the
length of `Content` — rather than the claimed `-1`. -/
theorem C3_counterexample :
    TSjson.is_in_position (.jobj [("b", .jnum 2)])
        (.data (.json (.jobj [("Content", .jarr [.jobj [("a", .jnum 1)]])]))) =
      .ok (false, 1) ∧ (1 : Int) ≠ -1 := by
  constructor
  · decide
  · decide

/-- C3 amended: on a readable document whose `Content` list is `xs`,
`is_in_position` returns `(true, i)` for the zero-based index `i` of the
first record structurally equal to the probe, and `(false, xs.length)` — not
`-1` — when none is equal; the `(false, -1)` result belongs to the absent,
empty, and unreadable states. -/
theorem C3_is_in_position (d : JValue) (fields : List (String × JValue)) (xs : List JValue)
    (hc : fields.lookup "Content" = some (.jarr xs)) :
    ((∀ x ∈ xs, x ≠ d) →
      TSjson.is_in_position d (.data (.json (.jobj fields))) =
        .ok (false, (xs.length : Int))) ∧
    (∀ pre post, xs = pre ++ d :: post → (∀ x ∈ pre, x ≠ d) →
      TSjson.is_in_position d (.data (.json (.jobj fields))) =
        .ok (true, (pre.length : Int))) ∧
    (∀ fs, (fs = .absent ∨ fs = .empty ∨ fs = .data .garbage) →
      TSjson.is_in_position d fs = .ok (false, -1)) := by
  have hne : fields ≠ [] := lookup_some_ne_nil hc
  refine ⟨?_, ?_, ?_⟩
  · intro h
    simp [TSjson.is_in_position, TSjson.read, jobj_ne_empty hne, JValue.getField, hc,
      positionScan_not_found h]
  · rintro pre post rfl h
    simp [TSjson.is_in_position, TSjson.read, jobj_ne_empty hne, JValue.getField, hc,
      positionScan_first h]
  · rintro fs (rfl | rfl | rfl) <;> rfl

/-- C3 witness: the amended statement at a concrete two-record document, in
both the hit and the miss case. -/
theorem C3_witness :
    TSjson.is_in_position (.jobj [("id", .jnum 2)])
        (.data (.json (.jobj [("Content",
          .jarr [.jobj [("id", .jnum 1)], .jobj [("id", .jnum 2)]])]))) =
      .ok (true, 1) ∧
    TSjson.is_in_position (.jobj [("id", .jnum 3)])
        (.data (.json (.jobj [("Content",
          .jarr [.jobj [("id", .jnum 1)], .jobj [("id", .jnum 2)]])]))) =
      .ok (false, 2) :=
  ⟨(C3_is_in_position (.jobj [("id", .jnum 2)])
      [("Content", .jarr [.jobj [("id", .jnum 1)], .jobj [("id", .jnum 2)]])]
      [.jobj [("id", .jnum 1)], .jobj [("id", .jnum 2)]] (by decide)).2.1
      [.jobj [("id", .jnum 1)]] [] (by decide) (by decide),
   (C3_is_in_position (.jobj [("id", .jnum 3)])
      [("Content", .jarr [.jobj [("id", .jnum 1)], .jobj [("id", .jnum 2)]])]
      [.jobj [("id", .jnum 1)], .jobj [("id", .jnum 2)]] (by decide)).1 (by decide)⟩

/-! ### C8: search_by_uid -/

theorem searchScan_not_found {value : JValue} {uid : String} {xs : List JValue}
    (h : ∀ x ∈ xs, x.isTruthy = true → ∃ w, x.getField uid = Except.ok w ∧ w ≠ value) :
    TSjson.searchScan value uid xs = .ok (false, none) := by
  induction xs with
  | nil => rfl
  | cons x xs ih =>
      have tl := ih fun y hy => h y (by simp [hy])
      by_cases hx : x.isTruthy = true
      · obtain ⟨w, hw, hne⟩ := h x (by simp) hx
        have : ¬ w = value := hne
        simp [TSjson.searchScan, hx, hw, this, tl]
      · simp [TSjson.searchScan, Bool.eq_false_iff.mpr hx, tl]

theorem searchScan_first {value m : JValue} {uid : String} {pre post : List JValue}
    (hpre : ∀ x ∈ pre, x.isTruthy = true → ∃ w, x.getField uid = Except.ok w ∧ w ≠ value)
    (hm : m.getField uid = Except.ok value) :
    TSjson.searchScan value uid (pre ++ m :: post) = .ok (true, some m) := by
  induction pre with
  | nil => simp [TSjson.searchScan, getField_ok_isTruthy hm, hm]
  | cons x xs ih =>
      have tl := ih fun y hy => hpre y (by simp [hy])
      by_cases hx : x.isTruthy = true
      · obtain ⟨w, hw, hne⟩ := hpre x (by simp) hx
        have : ¬ w = value := hne
        simp [TSjson.searchScan, hx, hw, this, tl]
      · simp [TSjson.searchScan, Bool.eq_false_iff.mpr hx, tl]

/-- C8 counterexample: a readable document with a truthy record lacking the
uid field makes `search_by_uid` raise `KeyError` instead of returning a
found flag. -/
theorem C8_counterexample :
    TSjson.search_by_uid (.jnum 5) "id"
        (.data (.json (.jobj [("Content", .jarr [.jobj [("a", .jnum 1)]])]))) =
      .error .keyError := by decide

/-- C8 amended: on a readable document whose `Content` is `xs`, provided
every truthy record scanned before the first match carries the uid field,
`search_by_uid` skips falsy records and returns `(true, first match)`, and
when every truthy record has the uid field with a non-matching value it
returns `(false, none)`. -/
theorem C8_search_by_uid (value : JValue) (uid : String)
    (fields : List (String × JValue)) (xs : List JValue)
    (hc : fields.lookup "Content" = some (.jarr xs)) :
    (∀ pre m post, xs = pre ++ m :: post →
      (∀ x ∈ pre, x.isTruthy = true → ∃ w, x.getField uid = Except.ok w ∧ w ≠ value) →
      m.getField uid = Except.ok value →
      TSjson.search_by_uid value uid (.data (.json (.jobj fields))) = .ok (true, some m)) ∧
    ((∀ x ∈ xs, x.isTruthy = true → ∃ w, x.getField uid = Except.ok w ∧ w ≠ value) →
      TSjson.search_by_uid value uid (.data (.json (.jobj fields))) = .ok (false, none)) := by
  have hne : fields ≠ [] := lookup_some_ne_nil hc
  constructor
  · rintro pre m post rfl hpre hm
    simp [TSjson.search_by_uid, TSjson.read, jobj_ne_empty hne, JValue.getField, hc,
      searchScan_first hpre hm]
  · intro h
    simp [TSjson.search_by_uid, TSjson.read, jobj_ne_empty hne, JValue.getField, hc,
      searchScan_not_found h]

/-- C8 witness: the spec's own example — on records
`[{"id":1,"v":"a"},{"id":2,"v":"b"}]`, searching uid `2` finds the second
record and searching uid `3` finds nothing. -/
theorem C8_witness :
    TSjson.search_by_uid (.jnum 2) "id"
        (.data (.json (.jobj [("Content", .jarr
          [.jobj [("id", .jnum 1), ("v", .jstr "a")],
           .jobj [("id", .jnum 2), ("v", .jstr "b")]])]))) =
      .ok (true, some (.jobj [("id", .jnum 2), ("v", .jstr "b")])) ∧
    TSjson.search_by_uid (.jnum 3) "id"
        (.data (.json (.jobj [("Content", .jarr
          [.jobj [("id", .jnum 1), ("v", .jstr "a")],
           .jobj [("id", .jnum 2), ("v", .jstr "b")]])]))) =
      .ok (false, none) :=
  ⟨(C8_search_by_uid (.jnum 2) "id"
      [("Content", .jarr [.jobj [("id", .jnum 1), ("v", .jstr "a")],
        .jobj [("id", .jnum 2), ("v", .jstr "b")]])]
      [.jobj [("id", .jnum 1), ("v", .jstr "a")], .jobj [("id", .jnum 2), ("v", .jstr "b")]]
      (by decide)).1
      [.jobj [("id", .jnum 1), ("v", .jstr "a")]] (.jobj [("id", .jnum 2), ("v", .jstr "b")]) []
      (by decide)
      (by intro x hx _
          refine ⟨.jnum 1, ?_, by decide⟩
          have : x = JValue.jobj [("id", .jnum 1), ("v", .jstr "a")] := by
            simpa using hx
          subst this
          decide)
      (by decide),
   (C8_search_by_uid (.jnum 3) "id"
      [("Content", .jarr [.jobj [("id", .jnum 1), ("v", .jstr "a")],
        .jobj [("id", .jnum 2), ("v", .jstr "b")]])]
      [.jobj [("id", .jnum 1), ("v", .jstr "a")], .jobj [("id", .jnum 2), ("v", .jstr "b")]]
      (by decide)).2
      (by intro x hx _
          rcases (by simpa using hx : x = JValue.jobj [("id", .jnum 1), ("v", .jstr "a")] ∨
            x = JValue.jobj [("id", .jnum 2), ("v", .jstr "b")]) with rfl | rfl
          · exact ⟨.jnum 1, by decide, by decide⟩
          · exact ⟨.jnum 2, by decide, by decide⟩)⟩

/-! ### C5: update -/

theorem updateScan_not_found {d dv : JValue} {uid : String} {xs : List JValue}
    (hd : d.getField uid = Except.ok dv)
    (h : ∀ x ∈ xs, ∃ w, x.getField uid = Except.ok w ∧ w ≠ dv) :
    TSjson.updateScan d uid xs = .ok (false, xs.length) := by
  induction xs with
  | nil => rfl
  | cons x xs ih =>
      obtain ⟨w, hw, hne⟩ := h x (by simp)
      have hv : ¬ dv = w := fun e => hne e.symm
      simp [TSjson.updateScan, hd, hw, hv, ih fun y hy => h y (by simp [hy])]

theorem updateScan_first {d dv m : JValue} {uid : String} {pre post : List JValue}
    (hd : d.getField uid = Except.ok dv)
    (hpre : ∀ x ∈ pre, ∃ w, x.getField uid = Except.ok w ∧ w ≠ dv)
    (hm : m.getField uid = Except.ok dv) :
    TSjson.updateScan d uid (pre ++ m :: post) = .ok (true, pre.length) := by
  induction pre with
  | nil => simp [TSjson.updateScan, hd, hm]
  | cons x xs ih =>
      obtain ⟨w, hw, hne⟩ := hpre x (by simp)
      have hv : ¬ dv = w := fun e => hne e.symm
      simp [TSjson.updateScan, hd, hw, hv, ih fun y hy => hpre y (by simp [hy])]

theorem setField_isEmpty (fields : List (String × JValue)) (k : String) (w : JValue) :
    (setField fields k w).isEmpty = fields.isEmpty := by
  cases fields with
  | nil => rfl
  | cons f fs =>
      obtain ⟨a, b⟩ := f
      simp only [setField]
      split <;> rfl

/-- C5 counterexample: the document `{"Content": [{"a":1}, {"id":2}]}` does
contain a record whose `"id"` equals the probe record's `"id"` value `2`,
but `update` raises `KeyError` on the first scanned record (which lacks
`"id"`) instead of replacing the match. -/
theorem C5_counterexample :
    TSjson.update (.jobj [("id", .jnum 2), ("v", .jstr "x")]) "id"
        (.data (.json (.jobj [("Content",
          .jarr [.jobj [("a", .jnum 1)], .jobj [("id", .jnum 2)]])]))) =
      .error .keyError := by decide

/-- C5 amended: for a readable document whose `Content` is `xs` and a probe
record carrying the uid field, if every record scanned before the first
match carries the uid field with a non-matching value, `update` replaces the
first matching record in place (by index) and overwrites the whole document
via `write`; if every record carries a non-matching uid value, it returns
failure and leaves the file unmodified. -/
theorem C5_update (d dv : JValue) (uid : String)
    (fields : List (String × JValue)) (xs : List JValue)
    (hc : fields.lookup "Content" = some (.jarr xs))
    (hd : d.getField uid = Except.ok dv) :
    (∀ pre m post, xs = pre ++ m :: post →
      (∀ x ∈ pre, ∃ w, x.getField uid = Except.ok w ∧ w ≠ dv) →
      m.getField uid = Except.ok dv →
      TSjson.update d uid (.data (.json (.jobj fields))) =
        .ok (true,
          .data (.json (.jobj (setField fields "Content" (.jarr (pre ++ d :: post))))))) ∧
    ((∀ x ∈ xs, ∃ w, x.getField uid = Except.ok w ∧ w ≠ dv) →
      TSjson.update d uid (.data (.json (.jobj fields))) =
        .ok (false, .data (.json (.jobj fields)))) := by
  have hne : fields ≠ [] := lookup_some_ne_nil hc
  constructor
  · rintro pre m post rfl hpre hm
    have htr : (JValue.jobj (setField fields "Content"
        (.jarr (pre ++ d :: post)))).isTruthy = true := by
      simp only [JValue.isTruthy, setField_isEmpty, Bool.not_eq_true']
      simpa using hne
    simp only [TSjson.update, TSjson.read, jobj_ne_empty hne, if_neg (jobj_ne_empty hne), hc,
      updateScan_first hd hpre hm, TSjson.write, set_length_append]
    simp [htr]
  · intro h
    simp [TSjson.update, TSjson.read, jobj_ne_empty hne, hc, updateScan_not_found hd h]

/-- C5 witness: the spec's own example — `update({"id":1,"v":"z"}, "id")` on
`[{"id":1,"v":"a"},{"id":2,"v":"b"}]` replaces the first record only and
persists the change; a probe with uid `7` leaves the document unchanged and
returns failure. -/
theorem C5_witness :
    TSjson.update (.jobj [("id", .jnum 1), ("v", .jstr "z")]) "id"
        (.data (.json (.jobj [("Content", .jarr
          [.jobj [("id", .jnum 1), ("v", .jstr "a")],
           .jobj [("id", .jnum 2), ("v", .jstr "b")]])]))) =
      .ok (true, .data (.json (.jobj [("Content", .jarr
          [.jobj [("id", .jnum 1), ("v", .jstr "z")],
           .jobj [("id", .jnum 2), ("v", .jstr "b")]])]))) ∧
    TSjson.update (.jobj [("id", .jnum 7)]) "id"
        (.data (.json (.jobj [("Content", .jarr
          [.jobj [("id", .jnum 1), ("v", .jstr "a")],
           .jobj [("id", .jnum 2), ("v", .jstr "b")]])]))) =
      .ok (false, .data (.json (.jobj [("Content", .jarr
          [.jobj [("id", .jnum 1), ("v", .jstr "a")],
           .jobj [("id", .jnum 2), ("v", .jstr "b")]])]))) :=
  ⟨(C5_update (.jobj [("id", .jnum 1), ("v", .jstr "z")]) (.jnum 1) "id"
      [("Content", .jarr [.jobj [("id", .jnum 1), ("v", .jstr "a")],
        .jobj [("id", .jnum 2), ("v", .jstr "b")]])]
      [.jobj [("id", .jnum 1), ("v", .jstr "a")], .jobj [("id", .jnum 2), ("v", .jstr "b")]]
      (by decide) (by decide)).1
      [] (.jobj [("id", .jnum 1), ("v", .jstr "a")]) [.jobj [("id", .jnum 2), ("v", .jstr "b")]]
      (by decide) (by simp) (by decide),
   (C5_update (.jobj [("id", .jnum 7)]) (.jnum 7) "id"
      [("Content", .jarr [.jobj [("id", .jnum 1), ("v", .jstr "a")],
        .jobj [("id", .jnum 2), ("v", .jstr "b")]])]
      [.jobj [("id", .jnum 1), ("v", .jstr "a")], .jobj [("id", .jnum 2), ("v", .jstr "b")]]
      (by decide) (by decide)).2
      (by intro x hx
          rcases (by simpa using hx : x = JValue.jobj [("id", .jnum 1), ("v", .jstr "a")] ∨
            x = JValue.jobj [("id", .jnum 2), ("v", .jstr "b")]) with rfl | rfl
          · exact ⟨.jnum 1, by decide, by decide⟩
          · exact ⟨.jnum 2, by decide, by decide⟩)⟩

/-! ### C1 and C10: remove_by_uid -/

theorem findByUidScan_not_found {value : JValue} {uid : String} {xs : List JValue}
    (h : ∀ x ∈ xs, ∃ w, x.getField uid = Except.ok w ∧ w ≠ value) :
    TSjson.findByUidScan value uid xs = .ok none := by
  induction xs with
  | nil => rfl
  | cons x xs ih =>
      obtain ⟨w, hw, hne⟩ := h x (by simp)
      have hv : ¬ w = value := hne
      simp [TSjson.findByUidScan, hw, hv, ih fun y hy => h y (by simp [hy])]

theorem findByUidScan_first {value m : JValue} {uid : String} {pre post : List JValue}
    (hpre : ∀ x ∈ pre, ∃ w, x.getField uid = Except.ok w ∧ w ≠ value)
    (hm : m.getField uid = Except.ok value) :
    TSjson.findByUidScan value uid (pre ++ m :: post) = .ok (some m) := by
  induction pre with
  | nil => simp [TSjson.findByUidScan, hm]
  | cons x xs ih =>
      obtain ⟨w, hw, hne⟩ := hpre x (by simp)
      have hv : ¬ w = value := hne
      simp [TSjson.findByUidScan, hw, hv, ih fun y hy => hpre y (by simp [hy])]

theorem erase_first_match {value m : JValue} {uid : String} {pre post : List JValue}
    (hpre : ∀ x ∈ pre, ∃ w, x.getField uid = Except.ok w ∧ w ≠ value)
    (hm : m.getField uid = Except.ok value) :
    (pre ++ m :: post).erase m = pre ++ post := by
  have hnm : m ∉ pre := by
    intro hmem
    obtain ⟨w, hw, hne⟩ := hpre m hmem
    rw [hm] at hw
    exact hne (Except.ok.inj hw).symm
  rw [List.erase_append_right _ hnm, List.erase_cons_head]

/-- Appending a truthy record to a freshly cleared (skeleton) file yields a
document whose content is exactly that one record. -/
theorem write_content_skeleton {y : JValue} (hy : y.isTruthy = true) :
    TSjson.write_content y (.data (.json skeleton)) =
      (true, .data (.json (.jobj [("Content", .jarr [y])]))) := by
  simp [TSjson.write_content, hy, skeleton, List.lookup, setField]

/-- C1 counterexample: the document `{"Content": [{"a":1}, {"id":5}]}`
contains a record whose `"id"` equals `5`, yet `remove_by_uid` raises
`KeyError` on the preceding record (which lacks `"id"`) instead of removing
the match and returning `true`. -/
theorem C1_counterexample :
    TSjson.remove_by_uid (.jnum 5) "id"
        (.data (.json (.jobj [("Content",
          .jarr [.jobj [("a", .jnum 1)], .jobj [("id", .jnum 5)]])]))) =
      .error .keyError := by decide

/-- C1 amended: for a readable document whose `Content` contains a first
record matching the uid value, provided every record scanned before the
match carries the uid field and the first remaining record (if any) is
truthy, `remove_by_uid` removes the first match from the in-memory list,
clears the file, writes back only the first remaining record (all others
are discarded; the skeleton alone remains when nothing is left), and
returns `true`. -/
theorem C1_remove_by_uid_found (value m : JValue) (uid : String)
    (fields : List (String × JValue)) (pre post : List JValue)
    (hc : fields.lookup "Content" = some (.jarr (pre ++ m :: post)))
    (hpre : ∀ x ∈ pre, ∃ w, x.getField uid = Except.ok w ∧ w ≠ value)
    (hm : m.getField uid = Except.ok value)
    (hhead : ∀ y ys, pre ++ post = y :: ys → y.isTruthy = true) :
    TSjson.remove_by_uid value uid (.data (.json (.jobj fields))) =
      .ok (true,
        match pre ++ post with
        | [] => .data (.json skeleton)
        | y :: _ => .data (.json (.jobj [("Content", .jarr [y])]))) := by
  have hne : fields ≠ [] := lookup_some_ne_nil hc
  have hread : TSjson.read_content (.data (.json (.jobj fields))) =
      .ok (.jarr (pre ++ m :: post)) := by
    simp [TSjson.read_content, TSjson.read, jobj_ne_empty hne, JValue.getField, hc]
  simp only [TSjson.remove_by_uid, hread, findByUidScan_first hpre hm,
    erase_first_match hpre hm]
  cases hpp : pre ++ post with
  | nil => simp [TSjson.clear_content]
  | cons y ys =>
      have hy : y.isTruthy = true := hhead y ys hpp
      simp [TSjson.clear_content, write_content_skeleton hy]

/-- C1 witness: removing uid `2` from `[{"id":1},{"id":2},{"id":3}]` returns
`true` and leaves the file holding only `{"id":1}` — the trailing record is
discarded by the write-back defect. -/
theorem C1_witness :
    TSjson.remove_by_uid (.jnum 2) "id"
        (.data (.json (.jobj [("Content", .jarr
          [.jobj [("id", .jnum 1)], .jobj [("id", .jnum 2)], .jobj [("id", .jnum 3)]])]))) =
      .ok (true, .data (.json (.jobj [("Content", .jarr [.jobj [("id", .jnum 1)]])]))) :=
  C1_remove_by_uid_found (.jnum 2) (.jobj [("id", .jnum 2)]) "id"
    [("Content", .jarr
      [.jobj [("id", .jnum 1)], .jobj [("id", .jnum 2)], .jobj [("id", .jnum 3)]])]
    [.jobj [("id", .jnum 1)]] [.jobj [("id", .jnum 3)]]
    (by decide)
    (by intro x hx
        have : x = JValue.jobj [("id", .jnum 1)] := by simpa using hx
        subst this
        exact ⟨.jnum 1, by decide, by decide⟩)
    (by decide)
    (by intro y ys h
        have : y = JValue.jobj [("id", .jnum 1)] := by
          simpa using congrArg (fun l => l.head?) h.symm
        subst this
        rfl)

/-- C10 counterexample: neither record of `{"Content": [{"a":1}, {"b":2}]}`
has an `"id"` field equal to `9`, but instead of returning `false` and
rewriting the file, `remove_by_uid` raises `KeyError` on the first scanned
record. -/
theorem C10_counterexample :
    TSjson.remove_by_uid (.jnum 9) "id"
        (.data (.json (.jobj [("Content",
          .jarr [.jobj [("a", .jnum 1)], .jobj [("b", .jnum 2)]])]))) =
      .error .keyError := by decide

/-- C10 amended: on a readable document whose `Content` holds two or more
records, each carrying the uid field with a value different from the probe,
`remove_by_uid` returns `false` yet still mutates the file: it clears the
document and writes back only the first record, discarding the rest — a
not-found call is not a no-op on the file. -/
theorem C10_remove_by_uid_not_found (value : JValue) (uid : String)
    (fields : List (String × JValue)) (x y : JValue) (rest : List JValue)
    (hc : fields.lookup "Content" = some (.jarr (x :: y :: rest)))
    (h : ∀ r ∈ x :: y :: rest, ∃ w, r.getField uid = Except.ok w ∧ w ≠ value) :
    TSjson.remove_by_uid value uid (.data (.json (.jobj fields))) =
      .ok (false, .data (.json (.jobj [("Content", .jarr [x])]))) := by
  have hne : fields ≠ [] := lookup_some_ne_nil hc
  have hread : TSjson.read_content (.data (.json (.jobj fields))) =
      .ok (.jarr (x :: y :: rest)) := by
    simp [TSjson.read_content, TSjson.read, jobj_ne_empty hne, JValue.getField, hc]
  obtain ⟨w, hw, _⟩ := h x (by simp)
  have hx : x.isTruthy = true := getField_ok_isTruthy hw
  simp only [TSjson.remove_by_uid, hread, findByUidScan_not_found h]
  simp [TSjson.clear_content, write_content_skeleton hx]

/-- C10 witness: a not-found removal on `[{"id":1},{"id":2}]` returns
`false` but rewrites the file to hold only `{"id":1}`. -/
theorem C10_witness :
    TSjson.remove_by_uid (.jnum 9) "id"
        (.data (.json (.jobj [("Content", .jarr
          [.jobj [("id", .jnum 1)], .jobj [("id", .jnum 2)]])]))) =
      .ok (false, .data (.json (.jobj [("Content", .jarr [.jobj [("id", .jnum 1)]])]))) :=
  C10_remove_by_uid_not_found (.jnum 9) "id"
    [("Content", .jarr [.jobj [("id", .jnum 1)], .jobj [("id", .jnum 2)]])]
    (.jobj [("id", .jnum 1)]) (.jobj [("id", .jnum 2)]) []
    (by decide)
    (by intro r hr
        rcases (by simpa using hr : r = JValue.jobj [("id", .jnum 1)] ∨
          r = JValue.jobj [("id", .jnum 2)]) with rfl | rfl
        · exact ⟨.jnum 1, by decide, by decide⟩
        · exact ⟨.jnum 2, by decide, by decide⟩)
